import Mathlib

/-!
Verification of the interactive solar-system visualization
(`src/components/visualizations/SolarSystem.tsx`).

The TypeScript source is shallowly embedded here.  JavaScript `number`
arithmetic is idealized as exact arithmetic in a linear ordered field `K`
(instantiated at `ℚ` for concrete evaluation and at `ℝ` for the parts that
use `Math.sin`, `Math.cos`, `Math.sqrt`, `Math.pow` and `Math.PI`).
Division by zero follows the Lean convention `x / 0 = 0`; every theorem
that depends on a division carries the positivity hypotheses that make the
modelled expression agree with the source.
-/

namespace SolarVis

/-! ## Data model (types from the source) -/

/-- Source `type Ring`: ring geometry of a body
(`inner`, `outer`, `tilt_deg`).  Named `RingGeom` because `Ring` is taken
by Mathlib. -/
structure RingGeom (K : Type) where
  inner : K
  outer : K
  tilt_deg : K

/-- Source `type Body`.  The two display colors are kept as
strings; `type : 'star' | 'planet'` is modelled by `isStar`. -/
structure Body (K : Type) where
  name : String
  isStar : Bool
  color : String
  color2 : String
  sma_au : K
  radius_km : K
  period_days : K
  ring : Option (RingGeom K)
  eccentricity : K
  perihelion_deg : K

/-- The mutable `stateRef.current` record of the component. -/
structure SimState (K : Type) where
  paused : Bool
  showOrbits : Bool
  showLabels : Bool
  showTrails : Bool
  zoom : K
  baseScale : K
  speed : K
  timeDays : K
  camera : K × K
  focus : String
  lastFrameMs : K

/-- Source `sizeRef.current`: the viewport size in CSS pixels (`dpr` is only used
for canvas backing-store allocation and is omitted). -/
structure ViewSize (K : Type) where
  w : K
  h : K

/-- Snapshot `{ x, y, zoom }` used by `CameraAnim`. -/
structure CamSnap (K : Type) where
  x : K
  y : K
  zoom : K

/-- Source `type CameraAnim`.  The source field `end` is a Lean
keyword and is embedded as `endS`. -/
structure CameraAnim (K : Type) where
  start : CamSnap K
  endS : CamSnap K
  t0 : K
  dur : K

/-! ## Constants and small helpers -/

/-- Source `const AU_KM = 149_597_870.7`. -/
def AU_KM (K : Type) [LinearOrderedField K] : K := 149597870.7

/-- Source `function clamp(x, min, max)`: `Math.max(min, Math.min(max, x))`. -/
def clamp {K : Type} [LinearOrderedField K] (x lo hi : K) : K :=
  Max.max lo (Min.min hi x)

/-- Source `function lerp(a, b, t)`: `a + (b - a) * t`. -/
def lerp {K : Type} [LinearOrderedField K] (a b t : K) : K :=
  a + (b - a) * t

/-- JavaScript `Math.sign` on a field (JavaScript returns ±1 for nonzero input and the
argument itself for ±0). -/
def jsSign {K : Type} [LinearOrderedField K] (x : K) : K :=
  if 0 < x then 1 else if x < 0 then -1 else 0

/-! ## Bodies (`BODIES` array from the source)

The Sun's `period_days` is `Number.POSITIVE_INFINITY` in the source, which
has no counterpart in a field; it is embedded as `0`.  This value is
unreachable: `bodyPositionAUprime` returns at the `name === 'Sun'` guard
before the period is read, and `drawOrbit` likewise skips the Sun. -/

/-- The Sun record. -/
def sun (K : Type) [LinearOrderedField K] : Body K :=
  { name := "Sun", isStar := true, color := "#ffde8a", color2 := "#ff9f3b",
    sma_au := 0, radius_km := 695700, period_days := 0, ring := none,
    eccentricity := 0, perihelion_deg := 0 }

/-- The Mercury record. -/
def mercury (K : Type) [LinearOrderedField K] : Body K :=
  { name := "Mercury", isStar := false, color := "#c0b7b1", color2 := "#8e8a86",
    sma_au := 0.387098, radius_km := 2439.7, period_days := 87.969, ring := none,
    eccentricity := 0.20563, perihelion_deg := 77.4578 }

/-- The Venus record. -/
def venus (K : Type) [LinearOrderedField K] : Body K :=
  { name := "Venus", isStar := false, color := "#e6d7a3", color2 := "#cdb788",
    sma_au := 0.723332, radius_km := 6051.8, period_days := 224.701, ring := none,
    eccentricity := 0.006772, perihelion_deg := 131.6025 }

/-- The Earth record. -/
def earth (K : Type) [LinearOrderedField K] : Body K :=
  { name := "Earth", isStar := false, color := "#6bb6ff", color2 := "#2f84ff",
    sma_au := 1, radius_km := 6371, period_days := 365.256, ring := none,
    eccentricity := 0.016710, perihelion_deg := 102.9377 }

/-- The Mars record. -/
def mars (K : Type) [LinearOrderedField K] : Body K :=
  { name := "Mars", isStar := false, color := "#e6733e", color2 := "#c14b1c",
    sma_au := 1.523679, radius_km := 3389.5, period_days := 686.98, ring := none,
    eccentricity := 0.093394, perihelion_deg := 336.0408 }

/-- The Jupiter record. -/
def jupiter (K : Type) [LinearOrderedField K] : Body K :=
  { name := "Jupiter", isStar := false, color := "#d2b48c", color2 := "#c08c57",
    sma_au := 5.2044, radius_km := 69911, period_days := 4332.589, ring := none,
    eccentricity := 0.048386, perihelion_deg := 14.7539 }

/-- The Saturn record. -/
def saturn (K : Type) [LinearOrderedField K] : Body K :=
  { name := "Saturn", isStar := false, color := "#ecdcb2", color2 := "#d0b98a",
    sma_au := 9.5826, radius_km := 58232, period_days := 10759.22,
    ring := some { inner := 1.15, outer := 2.41, tilt_deg := 26.7 },
    eccentricity := 0.053862, perihelion_deg := 92.4319 }

/-- The Uranus record. -/
def uranus (K : Type) [LinearOrderedField K] : Body K :=
  { name := "Uranus", isStar := false, color := "#7ad7f0", color2 := "#6dbdd8",
    sma_au := 19.2184, radius_km := 25362, period_days := 30685.4,
    ring := some { inner := 1.6, outer := 2, tilt_deg := 97.8 },
    eccentricity := 0.047257, perihelion_deg := 170.9642 }

/-- The Neptune record. -/
def neptune (K : Type) [LinearOrderedField K] : Body K :=
  { name := "Neptune", isStar := false, color := "#4c77ff", color2 := "#3158d6",
    sma_au := 30.11, radius_km := 24622, period_days := 60190, ring := none,
    eccentricity := 0.008590, perihelion_deg := 44.9714 }

/-- The `BODIES` list from the source, in source order. -/
def BODIES (K : Type) [LinearOrderedField K] : List (Body K) :=
  [sun K, mercury K, venus K, earth K, mars K, jupiter K, saturn K, uranus K,
   neptune K]

/-- Source `MAX_AU = Math.max(...BODIES.map(b => b.sma_au * (1 + b.eccentricity)))`.
`Math.max` over the spread of a nonempty list is its maximum; it is embedded
as a fold with seed `0`, which is below every element of the list. -/
def MAX_AU (K : Type) [LinearOrderedField K] : K :=
  ((BODIES K).map (fun b => b.sma_au * (1 + b.eccentricity))).foldr Max.max 0

/-! ## Coordinate transform -/

/-- Source `toScreen`: world AU coordinates to device pixels. -/
def toScreen {K : Type} [LinearOrderedField K] (size : ViewSize K)
    (st : SimState K) (x y : K) : K × K :=
  let scale := st.baseScale * st.zoom
  ((x - st.camera.1) * scale + size.w / 2, (y - st.camera.2) * scale + size.h / 2)

/-- Source `toWorld`: device pixels to world AU coordinates. -/
def toWorld {K : Type} [LinearOrderedField K] (size : ViewSize K)
    (st : SimState K) (px py : K) : K × K :=
  let scale := st.baseScale * st.zoom
  ((px - size.w / 2) / scale + st.camera.1, (py - size.h / 2) / scale + st.camera.2)

/-- Source `planetPixelRadius`: `(body.radius_km / AU_KM) * (baseScale * zoom)`. -/
def planetPixelRadius {K : Type} [LinearOrderedField K] (st : SimState K)
    (body : Body K) : K :=
  body.radius_km / AU_KM K * (st.baseScale * st.zoom)

/-- Source `fitAll`: recomputes `baseScale` from the viewport's shorter dimension and
`MAX_AU` with padding fraction `0.1`, floored at `6`; nothing else changes. -/
def fitAll {K : Type} [LinearOrderedField K] (size : ViewSize K)
    (st : SimState K) : SimState K :=
  let maxR := MAX_AU K
  let pad : K := 0.1
  let usable := Min.min size.w size.h * (1 - pad * 2)
  let scale := usable / (2 * maxR)
  { st with baseScale := Max.max 6 scale }

/-! ## Simulation clock (the clock portion of the `tick` callback) -/

/-- The clock update inside `tick(now)`:
`if (!state.lastFrameMs) state.lastFrameMs = now;`
`const dt = Math.min(100, now - state.lastFrameMs);`
`state.lastFrameMs = now;`
`if (!state.paused) state.timeDays += (dt / 1000) * state.speed;`
JavaScript's falsy test `!state.lastFrameMs` is the test against `0`
(the initial value of the field). -/
def tickClock {K : Type} [LinearOrderedField K] (st : SimState K)
    (now : K) : SimState K :=
  let last := if st.lastFrameMs = 0 then now else st.lastFrameMs
  let dt := Min.min 100 (now - last)
  { st with
    lastFrameMs := now,
    timeDays := if st.paused then st.timeDays
                else st.timeDays + dt / 1000 * st.speed }

/-! ## Input handlers (field-arithmetic part) -/

/-- The `onWheel` handler.  `delta = Math.sign(event.deltaY) * -0.08`;
the new zoom is clamped; if clamping leaves the zoom unchanged the handler
returns early; otherwise the zoom is applied and the camera is shifted by
the world-space displacement of the cursor pixel. -/
def onWheel {K : Type} [LinearOrderedField K] (size : ViewSize K)
    (st : SimState K) (deltaY mouseX mouseY : K) : SimState K :=
  let zoomPrev := st.zoom
  let delta := jsSign deltaY * (-0.08)
  let zoomNext := clamp (zoomPrev * (1 + delta)) 0.02 200000
  if zoomNext = zoomPrev then st
  else
    let worldBefore := toWorld size st mouseX mouseY
    let st1 := { st with zoom := zoomNext }
    let worldAfter := toWorld size st1 mouseX mouseY
    { st1 with
      camera := (st1.camera.1 + (worldBefore.1 - worldAfter.1),
                 st1.camera.2 + (worldBefore.2 - worldAfter.2)) }

/-- Source `setZoomBoth`: `zoom := clamp(Number(value), ZOOM_MIN, ZOOM_MAX)` with
`ZOOM_MIN = 0.02`, `ZOOM_MAX = 200_000`. -/
def setZoomBoth {K : Type} [LinearOrderedField K] (st : SimState K)
    (value : K) : SimState K :=
  { st with zoom := clamp value 0.02 200000 }

/-- Source `setSpeedBoth`: `speed := clamp(Number(value), SPEED_MIN, SPEED_MAX)` with
`SPEED_MIN = 0`, `SPEED_MAX = 20_000`. -/
def setSpeedBoth {K : Type} [LinearOrderedField K] (st : SimState K)
    (value : K) : SimState K :=
  { st with speed := clamp value 0 20000 }

/-! ## Real-valued part: angles, Kepler solver, positions

These use `Math.PI`, `Math.sin`, `Math.cos`, `Math.sqrt`, `Math.pow` and the
JavaScript `%` operator, so they are embedded over `ℝ`. -/

/-- Source `const TAU = Math.PI * 2`. -/
noncomputable def TAU : ℝ := Real.pi * 2

/-- Source `function toRadians(deg)`: `(deg * Math.PI) / 180`. -/
noncomputable def toRadians (deg : ℝ) : ℝ := deg * Real.pi / 180

/-- Truncation toward zero, as used by the JavaScript remainder operator. -/
noncomputable def jsTrunc (x : ℝ) : ℤ := if 0 ≤ x then ⌊x⌋ else ⌈x⌉

/-- The JavaScript `%` operator on numbers: `x % y = x - y * trunc(x / y)`
(the result carries the sign of the dividend). -/
noncomputable def jsMod (x y : ℝ) : ℝ := x - y * (jsTrunc (x / y) : ℝ)

/-- Source `function normalizeAngle(angle)`: `a = angle % TAU`, then
`if (a < 0) a += TAU`. -/
noncomputable def normalizeAngle (angle : ℝ) : ℝ :=
  let a := jsMod angle TAU
  if a < 0 then a + TAU else a

/-- The Newton–Raphson loop body of `solveKepler`: up to `fuel` iterations of
`E ← E - (E - e·sin E - m) / (1 - e·cos E)`, stopping early (after applying
the correction) once `|delta| < 1e-8`. -/
noncomputable def solveKeplerIter (m e : ℝ) : ℕ → ℝ → ℝ
  | 0, E => E
  | n + 1, E =>
    let f := E - e * Real.sin E - m
    let fPrime := 1 - e * Real.cos E
    let delta := f / fPrime
    let E1 := E - delta
    if |delta| < 1e-8 then E1 else solveKeplerIter m e n E1

/-- Source `function solveKepler(meanAnomaly, eccentricity)`:
normalize the mean anomaly, return it unchanged for `e = 0`, otherwise run
at most 12 Newton–Raphson iterations from `m` (or `π` when `e ≥ 0.8`). -/
noncomputable def solveKepler (meanAnomaly eccentricity : ℝ) : ℝ :=
  let m := normalizeAngle meanAnomaly
  let e := eccentricity
  if e = 0 then m
  else solveKeplerIter m e 12 (if e < 0.8 then m else Real.pi)

/-- Source `bodyPositionAUprime(body, tDays)`: orbit-plane position in AU.  The
source guard `!body || body.name === 'Sun'` reduces to the name test in this
typed embedding. -/
noncomputable def bodyPositionAUprime (body : Body ℝ) (tDays : ℝ) : ℝ × ℝ :=
  if body.name = "Sun" then (0, 0)
  else
    let a := body.sma_au
    let e := body.eccentricity
    if e = 0 then
      let angle := TAU * (jsMod tDays body.period_days / body.period_days)
      (a * Real.cos angle, a * Real.sin angle)
    else
      let meanMotion := TAU / body.period_days
      let meanAnomaly := normalizeAngle (meanMotion * tDays)
      let eccentricAnomaly := solveKepler meanAnomaly e
      let cosE := Real.cos eccentricAnomaly
      let sinE := Real.sin eccentricAnomaly
      let xPrime := a * (cosE - e)
      let yPrime := a * Real.sqrt (1 - e * e) * sinE
      let omega := toRadians body.perihelion_deg
      let cosO := Real.cos omega
      let sinO := Real.sin omega
      (xPrime * cosO - yPrime * sinO, xPrime * sinO + yPrime * cosO)

/-! ## Camera focus and transition -/

/-- The target-zoom computation inside `focusBody` (the `desiredZoom`
local). -/
def focusDesiredZoom {K : Type} [LinearOrderedField K] (size : ViewSize K)
    (st : SimState K) (target : Body K) : K :=
  let viewportMin := Max.max 320 (Min.min size.w size.h)
  let radiusAU := target.radius_km / AU_KM K
  let bodyScale := Max.max (radiusAU * st.baseScale) 1e-9
  let preferredPx :=
    if target.name = "Sun" then Max.max (viewportMin * 0.28) 220
    else Max.max 24 (Min.min (viewportMin * 0.22) 120)
  clamp (preferredPx / bodyScale) 0.02 200000

/-- Source `focusBody(name, animate)`.  `performance.now()` is passed in as `now`.
The `animate` branch replaces any in-flight `CameraAnim` with a fresh one of
duration 500 ms; the immediate branch overwrites the camera and leaves the
animation slot untouched. -/
noncomputable def focusBody (size : ViewSize ℝ) (st : SimState ℝ)
    (animOld : Option (CameraAnim ℝ)) (name : String) (animate : Bool)
    (now : ℝ) : SimState ℝ × Option (CameraAnim ℝ) :=
  let target := (((BODIES ℝ).find? (fun b => b.name == name)).getD (sun ℝ))
  let st0 := { st with focus := target.name }
  let pos := bodyPositionAUprime target st.timeDays
  let desiredZoom := focusDesiredZoom size st target
  if animate then
    (st0, some { start := { x := st.camera.1, y := st.camera.2, zoom := st.zoom },
                 endS := { x := pos.1, y := pos.2, zoom := desiredZoom },
                 t0 := now, dur := 500 })
  else
    ({ st0 with camera := (pos.1, pos.2), zoom := desiredZoom }, animOld)

/-- The camera-transition portion at the top of the `tick(now)` callback:
interpolate position and zoom by the cosine-eased factor and drop the
transition once `t ≥ 1`. -/
noncomputable def tickAnim (anim : Option (CameraAnim ℝ)) (now : ℝ)
    (st : SimState ℝ) : SimState ℝ × Option (CameraAnim ℝ) :=
  match anim with
  | none => (st, none)
  | some a =>
    let t := Min.min 1 ((now - a.t0) / a.dur)
    let eased := (1 - Real.cos (t * Real.pi)) * 0.5
    let st1 := { st with
      camera := (lerp a.start.x a.endS.x eased, lerp a.start.y a.endS.y eased),
      zoom := lerp a.start.zoom a.endS.zoom eased }
    (st1, if 1 ≤ t then none else some a)

/-- The state-mutating prefix of one `tick(now)` frame: camera transition,
then clock advance (drawing has no effect on the simulation state). -/
noncomputable def tick (anim : Option (CameraAnim ℝ)) (now : ℝ)
    (st : SimState ℝ) : SimState ℝ × Option (CameraAnim ℝ) :=
  let step := tickAnim anim now st
  (tickClock step.1 now, step.2)

/-! ## Sliders (`Math.pow` and `Math.round`) -/

/-- Source `sliderToZoom`: slider position 0..100 to zoom, exponent
`ZOOM_SLIDER_EXP = 3.4`. -/
noncomputable def sliderToZoom (slider : ℝ) : ℝ :=
  let t := clamp (slider / 100) 0 1 ^ (3.4 : ℝ)
  let ratio := ((200000 : ℝ) / 0.02) ^ t
  clamp (0.02 * ratio) 0.02 200000

/-- Source `sliderToSpeed`: slider position 0..100 to speed;
`Math.round(eased * SPEED_MAX)` is `⌊x + 1/2⌋`, the same as Mathlib's
`round` for these nonnegative arguments. -/
noncomputable def sliderToSpeed (slider : ℝ) : ℝ :=
  let t := clamp (slider / 100) 0 1
  let eased := t ^ (3.2 : ℝ)
  ((round (eased * 20000) : ℤ) : ℝ)

/-! ## Picking (the `onClick` handler) -/

/-- Pixel distance from the click point to a body's screen position:
`Math.hypot(mx - point.x, my - point.y)`. -/
noncomputable def clickDistance (size : ViewSize ℝ) (st : SimState ℝ)
    (mx my : ℝ) (body : Body ℝ) : ℝ :=
  let pos := bodyPositionAUprime body st.timeDays
  let point := toScreen size st pos.1 pos.2
  Real.sqrt ((mx - point.1) ^ 2 + (my - point.2) ^ 2)

/-- The hit threshold for a body: `Math.max(10, radius + 6)`. -/
noncomputable def clickThreshold (st : SimState ℝ) (body : Body ℝ) : ℝ :=
  Max.max 10 (planetPixelRadius st body + 6)

open Classical in
/-- The accumulator loop of `onClick`: `best`/`bestDistance` start as
`undefined`/`Infinity` (embedded as `none`: every real distance is below
`Infinity`, so the first body within its threshold is always adopted); a body
replaces the accumulator when its distance is inside its threshold and
strictly below the best distance so far. -/
noncomputable def pickAux (size : ViewSize ℝ) (st : SimState ℝ) (mx my : ℝ) :
    List (Body ℝ) → Option (Body ℝ × ℝ) → Option (Body ℝ × ℝ)
  | [], acc => acc
  | b :: rest, acc =>
    let d := clickDistance size st mx my b
    let better := match acc with
      | none => True
      | some p => d < p.2
    if d < clickThreshold st b ∧ better then
      pickAux size st mx my rest (some (b, d))
    else
      pickAux size st mx my rest acc

/-- The body selected by the `onClick` handler at click point `(mx, my)`
(`undefined` when no body is within its hit threshold). -/
noncomputable def onClickPick (size : ViewSize ℝ) (st : SimState ℝ)
    (mx my : ℝ) : Option (Body ℝ) :=
  (pickAux size st mx my (BODIES ℝ) none).map Prod.fst

open Classical in
/-- Modelled from the spec: the picking contract of §4.6 — "select the
closest body whose distance is within `max(minimum hit radius, body pixel
radius + margin)`; ties resolve to first match in body list order" — written
as a recursion to be compared with `onClickPick`. -/
noncomputable def pickSpec (size : ViewSize ℝ) (st : SimState ℝ) (mx my : ℝ) :
    List (Body ℝ) → Option (Body ℝ)
  | [] => none
  | b :: rest =>
    if clickDistance size st mx my b < clickThreshold st b then
      match pickSpec size st mx my rest with
      | none => some b
      | some c =>
        if clickDistance size st mx my c < clickDistance size st mx my b
        then some c else some b
    else pickSpec size st mx my rest

/-! ## Spec-side simulation clock (for claim C5)

A second clock definition written from the spec's words, with the baseline
explicitly optional ("on first call after (re)start, records `nowMs` as
baseline and returns 0"), to be compared with `tickClock`. -/

/-- Modelled from the spec: clock state with an explicit optional baseline. -/
structure SpecClock (K : Type) where
  elapsedDays : K
  lastMs : Option K
  paused : Bool
  speed : K

/-- Modelled from the spec: `tick(nowMs)` per §4.4 — first call records the
baseline and advances 0; later calls advance by `(min(now - last, 100)/1000) ×
speed` unless paused, and update `lastMs`. -/
def tickClockSpec {K : Type} [LinearOrderedField K] (c : SpecClock K)
    (now : K) : SpecClock K :=
  match c.lastMs with
  | none => { c with lastMs := some now }
  | some last =>
    { c with
      lastMs := some now,
      elapsedDays := if c.paused then c.elapsedDays
                     else c.elapsedDays + Min.min (now - last) 100 / 1000 * c.speed }

/-! ## Concrete sample data for instantiating theorems -/

/-- A concrete instance of the initial component state (`initialZoom = 1`,
`initialSpeed = 250` defaults, `baseScale = 18`, camera at the origin). -/
def sampleState (K : Type) [LinearOrderedField K] : SimState K :=
  { paused := false, showOrbits := true, showLabels := true, showTrails := false,
    zoom := 1, baseScale := 18, speed := 250, timeDays := 0, camera := (0, 0),
    focus := "Sun", lastFrameMs := 0 }

/-- A concrete viewport. -/
def sampleSize (K : Type) [LinearOrderedField K] : ViewSize K :=
  { w := 800, h := 600 }

/-- A concrete 500 ms camera transition starting at `t0 = 0`. -/
def sampleAnim : CameraAnim ℝ :=
  { start := { x := 0, y := 0, zoom := 1 },
    endS := { x := 3, y := 4, zoom := 7 }, t0 := 0, dur := 500 }

/-! # Theorems -/

/-- The function `clamp` never goes below its lower bound. -/
theorem le_clamp {K : Type} [LinearOrderedField K] (x lo hi : K) :
    lo ≤ clamp x lo hi :=
  le_max_left _ _

/-- The function `clamp` never exceeds its upper bound (when the bounds are ordered). -/
theorem clamp_le {K : Type} [LinearOrderedField K] (x lo hi : K)
    (h : lo ≤ hi) : clamp x lo hi ≤ hi :=
  max_le h (min_le_left _ _)

/-- C2: with zoom inside `[ZOOM_MIN, ZOOM_MAX]` and a positive base scale,
`toWorld` and `toScreen` are exact inverses of one another (hence equal
within any floating-point tolerance), and `toScreen` maps the camera focus
point to the viewport center. -/
theorem coordinate_roundtrip {K : Type} [LinearOrderedField K]
    (size : ViewSize K) (st : SimState K) (hbase : 0 < st.baseScale)
    (hz1 : 0.02 ≤ st.zoom) (hz2 : st.zoom ≤ 200000) :
    (∀ x y : K,
      toWorld size st (toScreen size st x y).1 (toScreen size st x y).2 = (x, y)) ∧
    (∀ px py : K,
      toScreen size st (toWorld size st px py).1 (toWorld size st px py).2 = (px, py)) ∧
    toScreen size st st.camera.1 st.camera.2 = (size.w / 2, size.h / 2) := by
  have hzpos : (0 : K) < st.zoom := lt_of_lt_of_le (by norm_num) hz1
  have hs : st.baseScale * st.zoom ≠ 0 := ne_of_gt (mul_pos hbase hzpos)
  refine ⟨fun x y => ?_, fun px py => ?_, ?_⟩
  · simp only [toScreen, toWorld, Prod.mk.injEq]
    constructor <;> field_simp
  · simp only [toScreen, toWorld, Prod.mk.injEq]
    constructor <;> (field_simp; ring)
  · simp [toScreen]

/-- C2 witness: the round-trip theorem applied to the concrete initial state
over `ℚ`. -/
theorem coordinate_roundtrip_witness :
    (0 : ℚ) < (sampleState ℚ).baseScale ∧
    (0.02 : ℚ) ≤ (sampleState ℚ).zoom ∧ (sampleState ℚ).zoom ≤ 200000 ∧
    ((∀ x y : ℚ,
      toWorld (sampleSize ℚ) (sampleState ℚ)
        (toScreen (sampleSize ℚ) (sampleState ℚ) x y).1
        (toScreen (sampleSize ℚ) (sampleState ℚ) x y).2 = (x, y)) ∧
    (∀ px py : ℚ,
      toScreen (sampleSize ℚ) (sampleState ℚ)
        (toWorld (sampleSize ℚ) (sampleState ℚ) px py).1
        (toWorld (sampleSize ℚ) (sampleState ℚ) px py).2 = (px, py)) ∧
    toScreen (sampleSize ℚ) (sampleState ℚ)
      (sampleState ℚ).camera.1 (sampleState ℚ).camera.2 =
      ((sampleSize ℚ).w / 2, (sampleSize ℚ).h / 2)) :=
  ⟨by norm_num [sampleState], by norm_num [sampleState], by norm_num [sampleState],
   coordinate_roundtrip (sampleSize ℚ) (sampleState ℚ)
     (by norm_num [sampleState]) (by norm_num [sampleState])
     (by norm_num [sampleState])⟩

/-- C3: a wheel event preserves the world point under the cursor exactly:
the zoom-anchor correction shifts the camera so that `toWorld` at the cursor
pixel is unchanged (this holds for every wheel event, in particular for
those that change the zoom). -/
theorem onWheel_anchor {K : Type} [LinearOrderedField K] (size : ViewSize K)
    (st : SimState K) (deltaY mouseX mouseY : K) :
    toWorld size (onWheel size st deltaY mouseX mouseY) mouseX mouseY =
      toWorld size st mouseX mouseY := by
  simp only [onWheel]
  split
  · rfl
  · simp only [toWorld, Prod.mk.injEq]
    constructor <;> ring

/-- C10: when clamping makes the new zoom equal to the current zoom (for
example at `ZOOM_MIN` on a zoom-out event), the wheel handler is a complete
no-op: the state, including `camera.x`/`camera.y`, is returned unchanged. -/
theorem onWheel_noop {K : Type} [LinearOrderedField K] (size : ViewSize K)
    (st : SimState K) (deltaY mouseX mouseY : K)
    (h : clamp (st.zoom * (1 + jsSign deltaY * (-0.08))) 0.02 200000 = st.zoom) :
    onWheel size st deltaY mouseX mouseY = st := by
  simp only [onWheel]
  rw [if_pos h]

/-- C10 witness: at `zoom = ZOOM_MIN = 0.02` a zoom-out wheel event
(`deltaY = 1`) leaves the state untouched. -/
theorem onWheel_noop_witness :
    clamp (({ sampleState ℚ with zoom := 0.02 } : SimState ℚ).zoom *
        (1 + jsSign (1 : ℚ) * (-0.08))) 0.02 200000 =
      ({ sampleState ℚ with zoom := 0.02 } : SimState ℚ).zoom ∧
    onWheel (sampleSize ℚ) { sampleState ℚ with zoom := 0.02 } 1 10 20 =
      { sampleState ℚ with zoom := 0.02 } := by
  have h : clamp (({ sampleState ℚ with zoom := 0.02 } : SimState ℚ).zoom *
      (1 + jsSign (1 : ℚ) * (-0.08))) 0.02 200000 =
      ({ sampleState ℚ with zoom := 0.02 } : SimState ℚ).zoom := by
    norm_num [clamp, jsSign, sampleState, min_def, max_def]
  exact ⟨h, onWheel_noop _ _ _ _ _ h⟩

/-- C5 (amended): the clock portion of `tick`.  A tick on a fresh clock
(`lastFrameMs = 0`) re-records the baseline and advances `timeDays` by 0;
a tick on a running clock (`lastFrameMs ≠ 0`) advances by
`min(100, now - last) / 1000 × speed` unless paused and updates `lastFrameMs`
unconditionally; while paused, any sequence of ticks leaves `timeDays`
unchanged.  (The source uses `lastFrameMs = 0` as the "unset" sentinel, so
the claim's description of the second tick holds only when the first
timestamp is nonzero — see the counterexample.) -/
theorem tickClock_behavior {K : Type} [LinearOrderedField K]
    (st : SimState K) (now : K) :
    (st.lastFrameMs = 0 →
      (tickClock st now).timeDays = st.timeDays ∧
      (tickClock st now).lastFrameMs = now) ∧
    (st.lastFrameMs ≠ 0 →
      (tickClock st now).timeDays =
        (if st.paused then st.timeDays
         else st.timeDays + Min.min 100 (now - st.lastFrameMs) / 1000 * st.speed) ∧
      (tickClock st now).lastFrameMs = now) ∧
    (st.paused = true → ∀ ts : List K,
      (ts.foldl tickClock st).timeDays = st.timeDays) := by
  refine ⟨fun h0 => ?_, fun hn => ?_, fun hp => ?_⟩
  · have hmin : Min.min (100 : K) (now - now) = 0 := by
      simp [min_def]
    simp [tickClock, h0, hmin]
  · simp [tickClock, hn]
  · intro ts
    induction ts generalizing st with
    | nil => rfl
    | cons a ts ih =>
      have hstep : (tickClock st a).timeDays = st.timeDays ∧
          (tickClock st a).paused = true := by
        simp [tickClock, hp]
      have := ih (tickClock st a) hstep.2
      simpa [List.foldl_cons, this] using hstep.1

/-- C5 witness: the clock theorem applied over `ℚ` to a running unpaused
clock at `lastFrameMs = 10`, `now = 250`. -/
theorem tickClock_behavior_witness :
    ({ sampleState ℚ with lastFrameMs := 10 } : SimState ℚ).lastFrameMs ≠ 0 ∧
    (tickClock { sampleState ℚ with lastFrameMs := 10 } 250).timeDays =
      (if ({ sampleState ℚ with lastFrameMs := 10 } : SimState ℚ).paused then
        ({ sampleState ℚ with lastFrameMs := 10 } : SimState ℚ).timeDays
       else ({ sampleState ℚ with lastFrameMs := 10 } : SimState ℚ).timeDays +
         Min.min 100 (250 - ({ sampleState ℚ with lastFrameMs := 10 } :
           SimState ℚ).lastFrameMs) / 1000 *
           ({ sampleState ℚ with lastFrameMs := 10 } : SimState ℚ).speed) ∧
    (tickClock { sampleState ℚ with lastFrameMs := 10 } 250).lastFrameMs = 250 := by
  have h := (tickClock_behavior ({ sampleState ℚ with lastFrameMs := 10 }) 250).2.1
    (by norm_num [sampleState])
  exact ⟨by norm_num [sampleState], h.1, h.2⟩

/-- C5 counterexample: with the first tick at timestamp exactly 0 the claim
fails.  Ticks at 0 then 50 on a fresh unpaused clock with speed 20 leave the
source clock's `timeDays` at 0, while the behavior the claim describes
(baseline recorded by the first tick, `dtMs = min(nowMs - lastMs, 100)` on
the next) advances elapsed days to `(50/1000) × 20 = 1`. -/
theorem tickClock_zero_timestamp_cex :
    (tickClock (tickClock ({ sampleState ℚ with speed := 20 }) 0) 50).timeDays = 0 ∧
    (tickClockSpec (tickClockSpec
      ({ elapsedDays := 0, lastMs := none, paused := false, speed := 20 } :
        SpecClock ℚ) 0) 50).elapsedDays = 1 ∧
    (tickClock (tickClock ({ sampleState ℚ with speed := 20 }) 0) 50).timeDays ≠
      (tickClockSpec (tickClockSpec
        ({ elapsedDays := 0, lastMs := none, paused := false, speed := 20 } :
          SpecClock ℚ) 0) 50).elapsedDays := by
  refine ⟨?_, ?_, ?_⟩ <;>
    norm_num [tickClock, tickClockSpec, sampleState, min_def]

/-- The constant `TAU` is positive. -/
theorem TAU_pos : (0 : ℝ) < TAU := by
  have := Real.pi_pos
  unfold TAU
  linarith

/-- The function `normalizeAngle` computes the canonical reduction modulo `TAU`:
`normalizeAngle x = TAU * fract (x / TAU)`.  The JavaScript `%` truncates
toward zero, and the `if (a < 0) a += TAU` fix-up turns that into the
floor-based reduction. -/
theorem normalizeAngle_fract (x : ℝ) :
    normalizeAngle x = TAU * Int.fract (x / TAU) := by
  have hT : (0 : ℝ) < TAU := TAU_pos
  have hTne : TAU ≠ 0 := ne_of_gt hT
  have hx : x = TAU * (x / TAU) := by field_simp
  simp only [normalizeAngle, jsMod, jsTrunc]
  by_cases h0 : 0 ≤ x / TAU
  · rw [if_pos h0]
    have hfr : x - TAU * ((⌊x / TAU⌋ : ℤ) : ℝ) = TAU * Int.fract (x / TAU) := by
      rw [Int.fract]
      nth_rewrite 1 [hx]
      ring
    rw [if_neg (not_lt.mpr (hfr ▸ mul_nonneg hT.le (Int.fract_nonneg _)))]
    exact hfr
  · rw [if_neg h0]
    push_neg at h0
    by_cases ha : x - TAU * ((⌈x / TAU⌉ : ℤ) : ℝ) < 0
    · rw [if_pos ha]
      have hxq : TAU * (x / TAU) = x := by
        rw [mul_comm, div_mul_cancel₀ x hTne]
      have hq : x / TAU < ((⌈x / TAU⌉ : ℤ) : ℝ) := by
        rw [div_lt_iff₀ hT]
        nlinarith
      have hfl : (⌊x / TAU⌋ : ℝ) ≤ x / TAU := Int.floor_le _
      have hlt : ⌊x / TAU⌋ < ⌈x / TAU⌉ := by
        exact_mod_cast lt_of_le_of_lt hfl hq
      have hle : ⌈x / TAU⌉ ≤ ⌊x / TAU⌋ + 1 := Int.ceil_le_floor_add_one _
      have hceil : (⌈x / TAU⌉ : ℤ) = ⌊x / TAU⌋ + 1 := by omega
      rw [Int.fract, hceil]
      push_cast
      rw [mul_sub, hxq]
      ring
    · push_neg at ha
      rw [if_neg (not_lt.mpr ha)]
      have hxq : TAU * (x / TAU) = x := by
        rw [mul_comm, div_mul_cancel₀ x hTne]
      have hle : x - TAU * ((⌈x / TAU⌉ : ℤ) : ℝ) ≤ 0 := by
        have h := Int.le_ceil (x / TAU)
        nlinarith
      have heq : x = TAU * ((⌈x / TAU⌉ : ℤ) : ℝ) := by linarith
      have hqint : x / TAU = ((⌈x / TAU⌉ : ℤ) : ℝ) := by
        rw [div_eq_iff hTne]
        linear_combination heq
      have hfr : Int.fract (x / TAU) = 0 := by
        rw [hqint]
        exact Int.fract_intCast _
      rw [hfr, mul_zero]
      linarith

/-- The value of `normalizeAngle` is nonnegative. -/
theorem normalizeAngle_nonneg (x : ℝ) : 0 ≤ normalizeAngle x := by
  rw [normalizeAngle_fract]
  exact mul_nonneg TAU_pos.le (Int.fract_nonneg _)

/-- The value of `normalizeAngle` is below `TAU`. -/
theorem normalizeAngle_lt (x : ℝ) : normalizeAngle x < TAU := by
  rw [normalizeAngle_fract]
  nlinarith [Int.fract_lt_one (x / TAU), TAU_pos]

/-- The function `normalizeAngle` is the identity on `[0, TAU)`. -/
theorem normalizeAngle_eq_self {x : ℝ} (h0 : 0 ≤ x) (h1 : x < TAU) :
    normalizeAngle x = x := by
  have hT : (0 : ℝ) < TAU := TAU_pos
  rw [normalizeAngle_fract, Int.fract_eq_self.mpr
    ⟨div_nonneg h0 hT.le, (div_lt_one hT).mpr h1⟩]
  rw [mul_comm, div_mul_cancel₀ x (ne_of_gt hT)]

/-- The function `normalizeAngle` is idempotent. -/
theorem normalizeAngle_idem (x : ℝ) :
    normalizeAngle (normalizeAngle x) = normalizeAngle x :=
  normalizeAngle_eq_self (normalizeAngle_nonneg x) (normalizeAngle_lt x)

/-- The function `normalizeAngle` agrees with the floor-based reduction of the claim: the value
reduced to `[0, 2π)`. -/
theorem normalizeAngle_eq_floor_reduction (x : ℝ) :
    normalizeAngle x = x - TAU * ((⌊x / TAU⌋ : ℤ) : ℝ) := by
  rw [normalizeAngle_fract, Int.fract, mul_sub,
    mul_comm TAU (x / TAU), div_mul_cancel₀ x (ne_of_gt TAU_pos)]

/-- C1: for a non-star body with eccentricity in `(0, 1)`, the solver
computes exactly the composition the claim describes: the mean anomaly
`M = 2π·tDays/period` is reduced to `[0, 2π)` (floor-based reduction), the
eccentric anomaly is obtained by at most 12 Newton–Raphson iterations from
`E₀ = M` (or `π` when `e ≥ 0.8`) with early stop below `1e-8`, and the
position is `(a(cos E - e), a·√(1-e²)·sin E)` rotated by the argument of
perihelion. -/
theorem kepler_position_spec (b : Body ℝ) (hname : b.name ≠ "Sun")
    (he0 : 0 < b.eccentricity) (he1 : b.eccentricity < 1) (tDays : ℝ) :
    0 ≤ normalizeAngle (TAU / b.period_days * tDays) ∧
    normalizeAngle (TAU / b.period_days * tDays) < TAU ∧
    normalizeAngle (TAU / b.period_days * tDays) =
      TAU * tDays / b.period_days -
        TAU * ((⌊TAU * tDays / b.period_days / TAU⌋ : ℤ) : ℝ) ∧
    bodyPositionAUprime b tDays =
      (let M := normalizeAngle (TAU / b.period_days * tDays)
       let E := solveKeplerIter M b.eccentricity 12
         (if b.eccentricity < 0.8 then M else Real.pi)
       let xP := b.sma_au * (Real.cos E - b.eccentricity)
       let yP := b.sma_au * Real.sqrt (1 - b.eccentricity ^ 2) * Real.sin E
       let omega := toRadians b.perihelion_deg
       (xP * Real.cos omega - yP * Real.sin omega,
        xP * Real.sin omega + yP * Real.cos omega)) := by
  have hMdiv : TAU / b.period_days * tDays = TAU * tDays / b.period_days := by
    ring
  refine ⟨normalizeAngle_nonneg _, normalizeAngle_lt _, ?_, ?_⟩
  · rw [normalizeAngle_eq_floor_reduction, hMdiv]
  · have hne : b.eccentricity ≠ 0 := ne_of_gt he0
    simp only [bodyPositionAUprime, if_neg hname, if_neg hne, solveKepler,
      normalizeAngle_idem]
    rw [show 1 - b.eccentricity * b.eccentricity = 1 - b.eccentricity ^ 2 from
      by ring]

/-- C1 witness: the solver theorem applied to Mercury at `tDays = 0`. -/
theorem kepler_position_spec_witness :
    (mercury ℝ).name ≠ "Sun" ∧ 0 < (mercury ℝ).eccentricity ∧
    (mercury ℝ).eccentricity < 1 ∧
    bodyPositionAUprime (mercury ℝ) 0 =
      (let M := normalizeAngle (TAU / (mercury ℝ).period_days * 0)
       let E := solveKeplerIter M (mercury ℝ).eccentricity 12
         (if (mercury ℝ).eccentricity < 0.8 then M else Real.pi)
       let xP := (mercury ℝ).sma_au * (Real.cos E - (mercury ℝ).eccentricity)
       let yP := (mercury ℝ).sma_au *
         Real.sqrt (1 - (mercury ℝ).eccentricity ^ 2) * Real.sin E
       let omega := toRadians (mercury ℝ).perihelion_deg
       (xP * Real.cos omega - yP * Real.sin omega,
        xP * Real.sin omega + yP * Real.cos omega)) :=
  ⟨by decide, by norm_num [mercury], by norm_num [mercury],
   (kepler_position_spec (mercury ℝ) (by decide)
     (by norm_num [mercury]) (by norm_num [mercury]) 0).2.2.2⟩

/-- C9: every body of the configured list with semi-major axis 0 (the Sun)
is positioned at the origin at all times; a non-star body with eccentricity
exactly 0 is positioned at `a·(cos θ, sin θ)` with
`θ = 2π · (tDays mod period) / period`, which lies exactly on the circle of
radius `a`. -/
theorem position_star_and_circle :
    (∀ b ∈ BODIES ℝ, b.sma_au = 0 → ∀ t : ℝ, bodyPositionAUprime b t = (0, 0)) ∧
    (∀ b : Body ℝ, b.name ≠ "Sun" → b.eccentricity = 0 → ∀ t : ℝ,
      bodyPositionAUprime b t =
        (b.sma_au * Real.cos (TAU * (jsMod t b.period_days / b.period_days)),
         b.sma_au * Real.sin (TAU * (jsMod t b.period_days / b.period_days))) ∧
      (bodyPositionAUprime b t).1 ^ 2 + (bodyPositionAUprime b t).2 ^ 2 =
        b.sma_au ^ 2) := by
  constructor
  · intro b hb hsma t
    simp only [BODIES, List.mem_cons, List.not_mem_nil, or_false] at hb
    rcases hb with rfl | rfl | rfl | rfl | rfl | rfl | rfl | rfl | rfl
    · simp [bodyPositionAUprime, sun]
    · exact absurd hsma (by norm_num [mercury])
    · exact absurd hsma (by norm_num [venus])
    · exact absurd hsma (by norm_num [earth])
    · exact absurd hsma (by norm_num [mars])
    · exact absurd hsma (by norm_num [jupiter])
    · exact absurd hsma (by norm_num [saturn])
    · exact absurd hsma (by norm_num [uranus])
    · exact absurd hsma (by norm_num [neptune])
  · intro b hname he t
    have hpos : bodyPositionAUprime b t =
        (b.sma_au * Real.cos (TAU * (jsMod t b.period_days / b.period_days)),
         b.sma_au * Real.sin (TAU * (jsMod t b.period_days / b.period_days))) := by
      simp [bodyPositionAUprime, hname, he]
    refine ⟨hpos, ?_⟩
    rw [hpos]
    have h := Real.cos_sq_add_sin_sq (TAU * (jsMod t b.period_days / b.period_days))
    dsimp only
    linear_combination b.sma_au ^ 2 * h

/-- C9 witness: the Sun is at the origin at `t = 5`, and a circular-orbit
body (Earth's elements with eccentricity zeroed) lies on its circle. -/
theorem position_star_and_circle_witness :
    bodyPositionAUprime (sun ℝ) 5 = (0, 0) ∧
    (bodyPositionAUprime { earth ℝ with eccentricity := 0 } 7).1 ^ 2 +
      (bodyPositionAUprime { earth ℝ with eccentricity := 0 } 7).2 ^ 2 =
      ({ earth ℝ with eccentricity := 0 } : Body ℝ).sma_au ^ 2 :=
  ⟨position_star_and_circle.1 (sun ℝ) (by simp [BODIES]) rfl 5,
   (position_star_and_circle.2 { earth ℝ with eccentricity := 0 }
     (by decide) rfl 7).2⟩

/-- C4: a frame tick with an active 500 ms camera transition.  Once
`now - t0 ≥ 500` the camera position and zoom equal the end snapshot exactly
and the transition is cleared; before that, camera position and zoom are
overwritten by `start`/`end` interpolated with the cosine-eased factor
`(1 - cos(t·π))/2`, `t = (now - t0)/500`, and the transition stays active.
After clearing, ticks with no transition leave camera and zoom untouched. -/
theorem camera_transition (a : CameraAnim ℝ) (st : SimState ℝ) (now : ℝ)
    (hdur : a.dur = 500) :
    (500 ≤ now - a.t0 →
      (tick (some a) now st).1.camera = (a.endS.x, a.endS.y) ∧
      (tick (some a) now st).1.zoom = a.endS.zoom ∧
      (tick (some a) now st).2 = none) ∧
    (now - a.t0 < 500 →
      (tick (some a) now st).1.camera =
        (lerp a.start.x a.endS.x
          ((1 - Real.cos ((now - a.t0) / 500 * Real.pi)) * 0.5),
         lerp a.start.y a.endS.y
          ((1 - Real.cos ((now - a.t0) / 500 * Real.pi)) * 0.5)) ∧
      (tick (some a) now st).1.zoom =
        lerp a.start.zoom a.endS.zoom
          ((1 - Real.cos ((now - a.t0) / 500 * Real.pi)) * 0.5) ∧
      (tick (some a) now st).2 = some a) ∧
    (∀ (st' : SimState ℝ) (now' : ℝ),
      (tick none now' st').1.camera = st'.camera ∧
      (tick none now' st').1.zoom = st'.zoom ∧
      (tick none now' st').2 = none) := by
  refine ⟨fun hge => ?_, fun hlt => ?_, fun st' now' => ?_⟩
  · have hq : (1 : ℝ) ≤ (now - a.t0) / a.dur := by
      rw [hdur, le_div_iff₀ (by norm_num : (0:ℝ) < 500)]
      linarith
    have hmin : Min.min (1 : ℝ) ((now - a.t0) / a.dur) = 1 := min_eq_left hq
    simp only [tick, tickAnim, hmin, tickClock, one_mul, Real.cos_pi]
    norm_num [lerp]
  · have hq : (now - a.t0) / 500 < 1 := by
      rw [div_lt_one (by norm_num : (0:ℝ) < 500)]
      linarith
    have hmin : Min.min (1 : ℝ) ((now - a.t0) / 500) = (now - a.t0) / 500 :=
      min_eq_right hq.le
    refine ⟨?_, ?_, ?_⟩ <;>
      simp only [tick, tickAnim, tickClock, hdur, hmin, if_neg (not_le.mpr hq)]
  · simp [tick, tickAnim, tickClock]

/-- C4 witness: the transition theorem at the concrete transition
`sampleAnim` (`t0 = 0`, duration 500) observed at `now = 600 ≥ 500`. -/
theorem camera_transition_witness :
    sampleAnim.dur = 500 ∧ (500 : ℝ) ≤ 600 - sampleAnim.t0 ∧
    (tick (some sampleAnim) 600 (sampleState ℝ)).1.camera =
      (sampleAnim.endS.x, sampleAnim.endS.y) ∧
    (tick (some sampleAnim) 600 (sampleState ℝ)).2 = none := by
  have h := (camera_transition sampleAnim (sampleState ℝ) 600 rfl).1
    (by norm_num [sampleAnim])
  exact ⟨rfl, by norm_num [sampleAnim], h.1, h.2.2⟩

/-- C6: every operation that sets zoom or speed saturates at the bounds
`[ZOOM_MIN, ZOOM_MAX] = [0.02, 200000]` and `[SPEED_MIN, SPEED_MAX] =
[0, 20000]`: the wheel handler, zoom clamping with an arbitrary factor, the
zoom/speed setters, both slider decoders, and the focus target zoom. -/
theorem zoom_speed_clamped (size : ViewSize ℝ) (st : SimState ℝ)
    (hz1 : 0.02 ≤ st.zoom) (hz2 : st.zoom ≤ 200000) :
    (∀ deltaY mouseX mouseY : ℝ,
      0.02 ≤ (onWheel size st deltaY mouseX mouseY).zoom ∧
      (onWheel size st deltaY mouseX mouseY).zoom ≤ 200000) ∧
    (∀ factor : ℝ,
      0.02 ≤ clamp (st.zoom * factor) 0.02 200000 ∧
      clamp (st.zoom * factor) 0.02 200000 ≤ 200000) ∧
    (∀ v : ℝ, 0.02 ≤ (setZoomBoth st v).zoom ∧ (setZoomBoth st v).zoom ≤ 200000) ∧
    (∀ v : ℝ, 0 ≤ (setSpeedBoth st v).speed ∧ (setSpeedBoth st v).speed ≤ 20000) ∧
    (∀ s : ℝ, 0.02 ≤ sliderToZoom s ∧ sliderToZoom s ≤ 200000) ∧
    (∀ s : ℝ, 0 ≤ sliderToSpeed s ∧ sliderToSpeed s ≤ 20000) ∧
    (∀ target : Body ℝ,
      0.02 ≤ focusDesiredZoom size st target ∧
      focusDesiredZoom size st target ≤ 200000) := by
  refine ⟨fun deltaY mouseX mouseY => ?_, fun factor => ?_, fun v => ?_,
    fun v => ?_, fun s => ?_, fun s => ?_, fun target => ?_⟩
  · simp only [onWheel]
    split
    · exact ⟨hz1, hz2⟩
    · exact ⟨le_clamp _ _ _, clamp_le _ _ _ (by norm_num)⟩
  · exact ⟨le_clamp _ _ _, clamp_le _ _ _ (by norm_num)⟩
  · exact ⟨le_clamp _ _ _, clamp_le _ _ _ (by norm_num)⟩
  · exact ⟨le_clamp _ _ _, clamp_le _ _ _ (by norm_num)⟩
  · exact ⟨le_clamp _ _ _, clamp_le _ _ _ (by norm_num)⟩
  · simp only [sliderToSpeed]
    have ht0 : (0 : ℝ) ≤ clamp (s / 100) 0 1 := le_clamp _ _ _
    have ht1 : clamp (s / 100) 0 1 ≤ 1 := clamp_le _ _ _ (by norm_num)
    have he0 : (0 : ℝ) ≤ clamp (s / 100) 0 1 ^ (3.2 : ℝ) :=
      Real.rpow_nonneg ht0 _
    have he1 : clamp (s / 100) 0 1 ^ (3.2 : ℝ) ≤ 1 :=
      Real.rpow_le_one ht0 ht1 (by norm_num)
    have hr0 : (0 : ℤ) ≤ round (clamp (s / 100) 0 1 ^ (3.2 : ℝ) * 20000) := by
      rw [round_eq]
      exact Int.floor_nonneg.mpr (by nlinarith)
    have hr1 : round (clamp (s / 100) 0 1 ^ (3.2 : ℝ) * 20000) ≤ 20000 := by
      rw [round_eq]
      have hmono : ⌊clamp (s / 100) 0 1 ^ (3.2 : ℝ) * 20000 + 1 / 2⌋ ≤
          ⌊(20000 : ℝ) + 1 / 2⌋ :=
        Int.floor_le_floor (by nlinarith)
      have h2 : ⌊(20000 : ℝ) + 1 / 2⌋ = 20000 :=
        Int.floor_eq_iff.mpr ⟨by norm_num, by norm_num⟩
      omega
    constructor
    · exact_mod_cast hr0
    · exact_mod_cast hr1
  · exact ⟨le_clamp _ _ _, clamp_le _ _ _ (by norm_num)⟩

/-- C6 witness: the clamping theorem applied to the concrete initial state,
plus one concrete saturation: `setZoomBoth` with the out-of-range value
`10^9` yields exactly `ZOOM_MAX`. -/
theorem zoom_speed_clamped_witness :
    (0.02 : ℝ) ≤ (sampleState ℝ).zoom ∧ (sampleState ℝ).zoom ≤ 200000 ∧
    (∀ v : ℝ, 0.02 ≤ (setZoomBoth (sampleState ℝ) v).zoom ∧
      (setZoomBoth (sampleState ℝ) v).zoom ≤ 200000) ∧
    (setZoomBoth (sampleState ℝ) 1000000000).zoom = 200000 := by
  refine ⟨by norm_num [sampleState], by norm_num [sampleState],
    (zoom_speed_clamped (sampleSize ℝ) (sampleState ℝ)
      (by norm_num [sampleState]) (by norm_num [sampleState])).2.2.1, ?_⟩
  norm_num [setZoomBoth, clamp, min_def, max_def]

/-- The maximum apoapsis over the configured bodies is Neptune's:
`30.11 × (1 + 0.008590)`. -/
theorem MAX_AU_value : MAX_AU ℝ = 30.3686449 := by
  norm_num [MAX_AU, BODIES, sun, mercury, venus, earth, mars, jupiter, saturn,
    uranus, neptune, List.foldr, max_def]

/-- C8 (amended): `fitAll` recomputes only `baseScale` (zoom and pan are
untouched, for every camera state), and the fitting guarantee holds for the
default camera (origin focus, zoom 1) on viewports whose shorter side is
large enough that the padding branch of `fitAll` applies (`scale ≥ 6`,
i.e. `min(w, h) ≥ 455.53 ≥ 15 × MAX_AU`): every world point of the apoapsis
disc (radius `MAX_AU`) then lands inside the viewport.  (For arbitrary
camera states, or small viewports where the `max(6, ·)` floor wins, the
original claim fails — see the counterexample.) -/
theorem fitAll_amended (size : ViewSize ℝ) (st : SimState ℝ)
    (hmin : 455.53 ≤ Min.min size.w size.h)
    (hcam1 : st.camera.1 = 0) (hcam2 : st.camera.2 = 0) (hzoom : st.zoom = 1) :
    (∀ x y : ℝ, x ^ 2 + y ^ 2 ≤ MAX_AU ℝ ^ 2 →
      0 ≤ (toScreen size (fitAll size st) x y).1 ∧
      (toScreen size (fitAll size st) x y).1 ≤ size.w ∧
      0 ≤ (toScreen size (fitAll size st) x y).2 ∧
      (toScreen size (fitAll size st) x y).2 ≤ size.h) ∧
    (∀ (size' : ViewSize ℝ) (st' : SimState ℝ),
      (fitAll size' st').zoom = st'.zoom ∧
      (fitAll size' st').camera = st'.camera ∧
      (fitAll size' st').speed = st'.speed ∧
      (fitAll size' st').timeDays = st'.timeDays) := by
  constructor
  · intro x y hxy
    have hMpos : (0 : ℝ) < MAX_AU ℝ := by
      rw [MAX_AU_value]
      norm_num
    have hm0 : (455.53 : ℝ) ≤ Min.min size.w size.h := hmin
    have hw : Min.min size.w size.h ≤ size.w := min_le_left _ _
    have hh : Min.min size.w size.h ≤ size.h := min_le_right _ _
    have hs6 : (6 : ℝ) ≤ Min.min size.w size.h * (1 - 0.1 * 2) / (2 * MAX_AU ℝ) := by
      rw [MAX_AU_value, le_div_iff₀ (by norm_num : (0:ℝ) < 2 * 30.3686449)]
      nlinarith
    have hbs : (fitAll size st).baseScale =
        Min.min size.w size.h * (1 - 0.1 * 2) / (2 * MAX_AU ℝ) := by
      simp only [fitAll]
      exact max_eq_right hs6
    have hspos : (0 : ℝ) < Min.min size.w size.h * (1 - 0.1 * 2) / (2 * MAX_AU ℝ) := by
      apply div_pos _ (by positivity)
      nlinarith
    have hxle : x ≤ MAX_AU ℝ := by
      nlinarith [sq_nonneg y, sq_nonneg (x - MAX_AU ℝ)]
    have hxge : -(MAX_AU ℝ) ≤ x := by
      nlinarith [sq_nonneg y, sq_nonneg (x + MAX_AU ℝ)]
    have hyle : y ≤ MAX_AU ℝ := by
      nlinarith [sq_nonneg x, sq_nonneg (y - MAX_AU ℝ)]
    have hyge : -(MAX_AU ℝ) ≤ y := by
      nlinarith [sq_nonneg x, sq_nonneg (y + MAX_AU ℝ)]
    have hkey : MAX_AU ℝ * (Min.min size.w size.h * (1 - 0.1 * 2) / (2 * MAX_AU ℝ)) =
        0.4 * Min.min size.w size.h := by
      rw [MAX_AU_value]
      have h2 : (2 : ℝ) * 30.3686449 ≠ 0 := by norm_num
      field_simp
      ring
    have hxs1 : x * ((fitAll size st).baseScale) ≤ 0.4 * Min.min size.w size.h := by
      rw [hbs]
      calc x * (Min.min size.w size.h * (1 - 0.1 * 2) / (2 * MAX_AU ℝ)) ≤
          MAX_AU ℝ * (Min.min size.w size.h * (1 - 0.1 * 2) / (2 * MAX_AU ℝ)) :=
            mul_le_mul_of_nonneg_right hxle hspos.le
        _ = 0.4 * Min.min size.w size.h := hkey
    have hxs2 : -(0.4 * Min.min size.w size.h) ≤ x * ((fitAll size st).baseScale) := by
      rw [hbs]
      have := mul_le_mul_of_nonneg_right hxge hspos.le
      calc -(0.4 * Min.min size.w size.h)
          = -(MAX_AU ℝ) * (Min.min size.w size.h * (1 - 0.1 * 2) / (2 * MAX_AU ℝ)) := by
            rw [neg_mul, hkey]
        _ ≤ x * (Min.min size.w size.h * (1 - 0.1 * 2) / (2 * MAX_AU ℝ)) := this
    have hys1 : y * ((fitAll size st).baseScale) ≤ 0.4 * Min.min size.w size.h := by
      rw [hbs]
      calc y * (Min.min size.w size.h * (1 - 0.1 * 2) / (2 * MAX_AU ℝ)) ≤
          MAX_AU ℝ * (Min.min size.w size.h * (1 - 0.1 * 2) / (2 * MAX_AU ℝ)) :=
            mul_le_mul_of_nonneg_right hyle hspos.le
        _ = 0.4 * Min.min size.w size.h := hkey
    have hys2 : -(0.4 * Min.min size.w size.h) ≤ y * ((fitAll size st).baseScale) := by
      rw [hbs]
      have := mul_le_mul_of_nonneg_right hyge hspos.le
      calc -(0.4 * Min.min size.w size.h)
          = -(MAX_AU ℝ) * (Min.min size.w size.h * (1 - 0.1 * 2) / (2 * MAX_AU ℝ)) := by
            rw [neg_mul, hkey]
        _ ≤ y * (Min.min size.w size.h * (1 - 0.1 * 2) / (2 * MAX_AU ℝ)) := this
    have hz' : (fitAll size st).zoom = 1 := hzoom
    have hc1 : (fitAll size st).camera.1 = 0 := hcam1
    have hc2 : (fitAll size st).camera.2 = 0 := hcam2
    have hpx : (toScreen size (fitAll size st) x y).1 =
        x * ((fitAll size st).baseScale) + size.w / 2 := by
      simp only [toScreen, hz', hc1, mul_one, sub_zero]
    have hpy : (toScreen size (fitAll size st) x y).2 =
        y * ((fitAll size st).baseScale) + size.h / 2 := by
      simp only [toScreen, hz', hc2, mul_one, sub_zero]
    refine ⟨?_, ?_, ?_, ?_⟩
    · rw [hpx]
      linarith
    · rw [hpx]
      linarith
    · rw [hpy]
      linarith
    · rw [hpy]
      linarith
  · intro size' st'
    exact ⟨rfl, rfl, rfl, rfl⟩

/-- C8 witness: the amended theorem applied to a 1000×800 viewport with the
default camera, at the world point `(30, 0)` of the apoapsis disc. -/
theorem fitAll_amended_witness :
    (455.53 : ℝ) ≤ Min.min (1000 : ℝ) 800 ∧
    (sampleState ℝ).camera.1 = 0 ∧ (sampleState ℝ).camera.2 = 0 ∧
    (sampleState ℝ).zoom = 1 ∧
    (30 : ℝ) ^ 2 + (0 : ℝ) ^ 2 ≤ MAX_AU ℝ ^ 2 ∧
    (0 ≤ (toScreen ({ w := 1000, h := 800 } : ViewSize ℝ)
        (fitAll ({ w := 1000, h := 800 } : ViewSize ℝ) (sampleState ℝ)) 30 0).1 ∧
      (toScreen ({ w := 1000, h := 800 } : ViewSize ℝ)
        (fitAll ({ w := 1000, h := 800 } : ViewSize ℝ) (sampleState ℝ)) 30 0).1 ≤ 1000) := by
  have hdisc : (30 : ℝ) ^ 2 + (0 : ℝ) ^ 2 ≤ MAX_AU ℝ ^ 2 := by
    rw [MAX_AU_value]
    norm_num
  have h := ((fitAll_amended ({ w := 1000, h := 800 } : ViewSize ℝ) (sampleState ℝ)
    (by norm_num [min_def]) (by norm_num [sampleState])
    (by norm_num [sampleState]) (by norm_num [sampleState])).1 30 0 hdisc)
  exact ⟨by norm_num [min_def], by norm_num [sampleState],
    by norm_num [sampleState], by norm_num [sampleState], hdisc, h.1, h.2.1⟩

/-- A Newton–Raphson step taken at a root of Kepler's equation leaves `E`
unchanged: the correction is 0, which triggers the early stop. -/
theorem solveKeplerIter_root (m e E : ℝ) (n : ℕ)
    (hf : E - e * Real.sin E - m = 0) :
    solveKeplerIter m e (n + 1) E = E := by
  simp only [solveKeplerIter, hf]
  norm_num

/-- Neptune sits exactly at its apoapsis point at `tDays = 30095` (half its
period): the mean anomaly is `π`, the Newton iteration stops at `E = π`
immediately, and the position is `-a(1+e)` rotated by `ω`. -/
theorem neptune_apoapsis :
    bodyPositionAUprime (neptune ℝ) 30095 =
      (-(30.11 * (1 + 0.008590)) * Real.cos (toRadians 44.9714),
       -(30.11 * (1 + 0.008590)) * Real.sin (toRadians 44.9714)) := by
  have hpilt : Real.pi < TAU := by
    unfold TAU
    nlinarith [Real.pi_pos]
  have hpi : TAU / (neptune ℝ).period_days * 30095 = Real.pi := by
    simp only [TAU, neptune]
    field_simp
    ring
  have hE : solveKepler (normalizeAngle (TAU / (neptune ℝ).period_days * 30095))
      (neptune ℝ).eccentricity = Real.pi := by
    rw [hpi, normalizeAngle_eq_self Real.pi_pos.le hpilt]
    unfold solveKepler
    rw [normalizeAngle_eq_self Real.pi_pos.le hpilt]
    rw [if_neg (by norm_num [neptune] : ¬(neptune ℝ).eccentricity = 0)]
    rw [if_pos (by norm_num [neptune] : (neptune ℝ).eccentricity < 0.8)]
    rw [show (12 : ℕ) = 11 + 1 from rfl]
    exact solveKeplerIter_root _ _ _ _ (by rw [Real.sin_pi]; ring)
  have hname : ¬(neptune ℝ).name = "Sun" := by decide
  have hecc : ¬(neptune ℝ).eccentricity = 0 := by norm_num [neptune]
  simp only [bodyPositionAUprime, if_neg hname, if_neg hecc, hE, Real.cos_pi,
    Real.sin_pi, mul_zero, zero_mul, sub_zero, add_zero]
  rw [Prod.mk.injEq]
  constructor
  · show (neptune ℝ).sma_au * (-1 - (neptune ℝ).eccentricity) *
      Real.cos (toRadians (neptune ℝ).perihelion_deg) =
      -(30.11 * (1 + 0.008590)) * Real.cos (toRadians 44.9714)
    norm_num [neptune]
  · show (neptune ℝ).sma_au * (-1 - (neptune ℝ).eccentricity) *
      Real.sin (toRadians (neptune ℝ).perihelion_deg) =
      -(30.11 * (1 + 0.008590)) * Real.sin (toRadians 44.9714)
    norm_num [neptune]

/-- C8 counterexample: on a 250×250 viewport with the default camera state
(origin focus, zoom 1), immediately after `fitAll()` the farthest body's
apoapsis point (Neptune at `tDays = 30095`, at distance `MAX_AU` from the
origin) maps through `toScreen` to a pixel with negative x coordinate —
outside the viewport bounds, contradicting the claim that this holds for
every viewport size and camera state. -/
theorem fitAll_clip_cex :
    (toScreen ({ w := 250, h := 250 } : ViewSize ℝ)
      (fitAll ({ w := 250, h := 250 } : ViewSize ℝ) (sampleState ℝ))
      (bodyPositionAUprime (neptune ℝ) 30095).1
      (bodyPositionAUprime (neptune ℝ) 30095).2).1 < 0 := by
  have hbs : (fitAll ({ w := 250, h := 250 } : ViewSize ℝ)
      (sampleState ℝ)).baseScale = 6 := by
    simp only [fitAll]
    apply max_eq_left
    rw [MAX_AU_value, min_self]
    norm_num
  have homega0 : 0 ≤ toRadians 44.9714 := by
    unfold toRadians
    positivity
  have homega : toRadians 44.9714 ≤ Real.pi / 4 := by
    unfold toRadians
    nlinarith [Real.pi_pos]
  have hcos : Real.cos (Real.pi / 4) ≤ Real.cos (toRadians 44.9714) :=
    Real.cos_le_cos_of_nonneg_of_le_pi homega0 (by nlinarith [Real.pi_pos]) homega
  have hsqrt2 : (1.4 : ℝ) ≤ Real.sqrt 2 := by
    nlinarith [Real.sq_sqrt (by norm_num : (0:ℝ) ≤ 2), Real.sqrt_nonneg 2]
  have hcos07 : (0.7 : ℝ) ≤ Real.cos (toRadians 44.9714) := by
    rw [Real.cos_pi_div_four] at hcos
    linarith
  have hz : (fitAll ({ w := 250, h := 250 } : ViewSize ℝ) (sampleState ℝ)).zoom = 1 := rfl
  have hc : (fitAll ({ w := 250, h := 250 } : ViewSize ℝ)
      (sampleState ℝ)).camera.1 = 0 := rfl
  simp only [toScreen, hbs, hz, hc, mul_one, sub_zero]
  rw [show (bodyPositionAUprime (neptune ℝ) 30095).1 =
    -(30.11 * (1 + 0.008590)) * Real.cos (toRadians 44.9714) from
    congrArg Prod.fst neptune_apoapsis]
  nlinarith [hcos07]

/-! ## Picking lemmas (claim C7) -/

/-- Click distances are nonnegative (they are square roots). -/
theorem clickDistance_nonneg (size : ViewSize ℝ) (st : SimState ℝ)
    (mx my : ℝ) (b : Body ℝ) : 0 ≤ clickDistance size st mx my b :=
  Real.sqrt_nonneg _

/-- The hit threshold is at least the minimum hit radius 10, hence positive. -/
theorem clickThreshold_pos (st : SimState ℝ) (b : Body ℝ) :
    0 < clickThreshold st b :=
  lt_of_lt_of_le (by norm_num) (le_max_left _ _)

/-- The map `toScreen` is injective in the world point when the effective scale is
nonzero. -/
theorem toScreen_inj (size : ViewSize ℝ) (st : SimState ℝ)
    (hs : st.baseScale * st.zoom ≠ 0) (x1 y1 x2 y2 : ℝ)
    (h : toScreen size st x1 y1 = toScreen size st x2 y2) :
    x1 = x2 ∧ y1 = y2 := by
  simp only [toScreen, Prod.mk.injEq] at h
  constructor
  · have h2 : (x1 - st.camera.1) * (st.baseScale * st.zoom) =
        (x2 - st.camera.1) * (st.baseScale * st.zoom) := by linarith [h.1]
    have h3 := mul_right_cancel₀ hs h2
    linarith
  · have h2 : (y1 - st.camera.2) * (st.baseScale * st.zoom) =
        (y2 - st.camera.2) * (st.baseScale * st.zoom) := by linarith [h.2]
    have h3 := mul_right_cancel₀ hs h2
    linarith

/-- A click exactly at a body's computed screen center has distance 0 to
that body. -/
theorem clickDistance_self (size : ViewSize ℝ) (st : SimState ℝ) (b : Body ℝ) :
    clickDistance size st
      (toScreen size st (bodyPositionAUprime b st.timeDays).1
        (bodyPositionAUprime b st.timeDays).2).1
      (toScreen size st (bodyPositionAUprime b st.timeDays).1
        (bodyPositionAUprime b st.timeDays).2).2 b = 0 := by
  simp [clickDistance]

/-- A click at body `b`'s screen center is at positive distance from any
body whose world position differs from `b`'s (the scale being nonzero). -/
theorem clickDistance_pos_of_ne (size : ViewSize ℝ) (st : SimState ℝ)
    (b c : Body ℝ) (hs : st.baseScale * st.zoom ≠ 0)
    (hne : bodyPositionAUprime c st.timeDays ≠ bodyPositionAUprime b st.timeDays) :
    0 < clickDistance size st
      (toScreen size st (bodyPositionAUprime b st.timeDays).1
        (bodyPositionAUprime b st.timeDays).2).1
      (toScreen size st (bodyPositionAUprime b st.timeDays).1
        (bodyPositionAUprime b st.timeDays).2).2 c := by
  unfold clickDistance
  apply Real.sqrt_pos.mpr
  by_contra hc
  push_neg at hc
  have h1 := sq_nonneg ((toScreen size st (bodyPositionAUprime b st.timeDays).1
    (bodyPositionAUprime b st.timeDays).2).1 -
    (toScreen size st (bodyPositionAUprime c st.timeDays).1
      (bodyPositionAUprime c st.timeDays).2).1)
  have h2 := sq_nonneg ((toScreen size st (bodyPositionAUprime b st.timeDays).1
    (bodyPositionAUprime b st.timeDays).2).2 -
    (toScreen size st (bodyPositionAUprime c st.timeDays).1
      (bodyPositionAUprime c st.timeDays).2).2)
  have hx : (toScreen size st (bodyPositionAUprime b st.timeDays).1
      (bodyPositionAUprime b st.timeDays).2).1 =
      (toScreen size st (bodyPositionAUprime c st.timeDays).1
        (bodyPositionAUprime c st.timeDays).2).1 := by nlinarith
  have hy : (toScreen size st (bodyPositionAUprime b st.timeDays).1
      (bodyPositionAUprime b st.timeDays).2).2 =
      (toScreen size st (bodyPositionAUprime c st.timeDays).1
        (bodyPositionAUprime c st.timeDays).2).2 := by nlinarith
  have heq := toScreen_inj size st hs _ _ _ _
    (Prod.ext hx hy :
      toScreen size st (bodyPositionAUprime b st.timeDays).1
        (bodyPositionAUprime b st.timeDays).2 =
      toScreen size st (bodyPositionAUprime c st.timeDays).1
        (bodyPositionAUprime c st.timeDays).2)
  exact hne (Prod.ext heq.1.symm heq.2.symm)

open Classical in
/-- The accumulator loop of `onClick`, started from a candidate `c₀`, keeps
`c₀` unless the remaining list contains a strictly closer eligible body; the
result is exactly the claim's first-minimizer `pickSpec` merged against
`c₀`. -/
theorem pickAux_some_eq (size : ViewSize ℝ) (st : SimState ℝ) (mx my : ℝ)
    (l : List (Body ℝ)) :
    ∀ c₀ : Body ℝ,
      pickAux size st mx my l (some (c₀, clickDistance size st mx my c₀)) =
        (match pickSpec size st mx my l with
         | none => some (c₀, clickDistance size st mx my c₀)
         | some c =>
           if clickDistance size st mx my c < clickDistance size st mx my c₀
           then some (c, clickDistance size st mx my c)
           else some (c₀, clickDistance size st mx my c₀)) := by
  induction l with
  | nil => intro c₀; rfl
  | cons b rest ih =>
    intro c₀
    simp only [pickAux, pickSpec]
    by_cases hth : clickDistance size st mx my b < clickThreshold st b
    · by_cases hlt : clickDistance size st mx my b < clickDistance size st mx my c₀
      · rw [if_pos ⟨hth, hlt⟩, ih b, if_pos hth]
        cases hspec : pickSpec size st mx my rest with
        | none => simp [hlt]
        | some c =>
          by_cases hcb : clickDistance size st mx my c < clickDistance size st mx my b
          · have hcc : clickDistance size st mx my c <
                clickDistance size st mx my c₀ := lt_trans hcb hlt
            simp [hcb, hcc]
          · simp [hcb, hlt]
      · rw [if_neg (fun hand => hlt hand.2), ih c₀, if_pos hth]
        cases hspec : pickSpec size st mx my rest with
        | none => simp [hlt]
        | some c =>
          by_cases hcb : clickDistance size st mx my c < clickDistance size st mx my b
          · simp [hcb]
          · have hcc : ¬ clickDistance size st mx my c <
                clickDistance size st mx my c₀ := by
              push_neg at hlt hcb ⊢
              linarith
            simp [hcb, hlt, hcc]
    · rw [if_neg (fun hand => hth hand.1), ih c₀, if_neg hth]

open Classical in
/-- The `onClick` accumulator loop started empty computes the claim's
first-minimizer selection (paired with its distance). -/
theorem pickAux_none_eq (size : ViewSize ℝ) (st : SimState ℝ) (mx my : ℝ)
    (l : List (Body ℝ)) :
    pickAux size st mx my l none =
      (pickSpec size st mx my l).map
        (fun c => (c, clickDistance size st mx my c)) := by
  induction l with
  | nil => rfl
  | cons b rest ih =>
    simp only [pickAux, pickSpec]
    by_cases hth : clickDistance size st mx my b < clickThreshold st b
    · rw [if_pos ⟨hth, trivial⟩, if_pos hth, pickAux_some_eq]
      cases hspec : pickSpec size st mx my rest with
      | none => rfl
      | some c =>
        by_cases hcb : clickDistance size st mx my c < clickDistance size st mx my b
        · simp [hcb]
        · simp [hcb]
    · rw [if_neg (fun hand => hth hand.1), if_neg hth]
      exact ih

/-- The claim's selection rule returns the clicked body when the click is at
its screen center (distance 0, inside the always-positive threshold) and
every other listed body is at positive distance. -/
theorem pickSpec_at_center (size : ViewSize ℝ) (st : SimState ℝ) (mx my : ℝ)
    (l : List (Body ℝ)) (b : Body ℝ) (hb : b ∈ l)
    (hdb : clickDistance size st mx my b = 0)
    (hth : 0 < clickThreshold st b)
    (hothers : ∀ c ∈ l, c ≠ b → 0 < clickDistance size st mx my c) :
    pickSpec size st mx my l = some b := by
  induction l with
  | nil => cases hb
  | cons h rest ih =>
    by_cases hhb : h = b
    · subst hhb
      simp only [pickSpec]
      rw [if_pos (by rw [hdb]; exact hth)]
      cases hspec : pickSpec size st mx my rest with
      | none => rfl
      | some c =>
        dsimp only
        rw [if_neg (by rw [hdb]; exact not_lt.mpr (clickDistance_nonneg _ _ _ _ _))]
    · have hbr : b ∈ rest := by
        rcases List.mem_cons.mp hb with h1 | h1
        · exact absurd h1.symm hhb
        · exact h1
      have hrec := ih hbr
        (fun c hc hcb => hothers c (List.mem_cons_of_mem _ hc) hcb)
      simp only [pickSpec, hrec]
      by_cases hth2 : clickDistance size st mx my h < clickThreshold st h
      · rw [if_pos hth2,
          if_pos (by rw [hdb]; exact hothers h (List.mem_cons_self _ _) hhb)]
      · rw [if_neg hth2]

/-- Squared distance from the origin of a non-star body's position: the
rotation by ω preserves the norm and the ellipse parametrization gives
`a²(1 - e·cos E)²`. -/
theorem bodyPosition_normSq (b : Body ℝ) (hname : ¬ b.name = "Sun")
    (he : ¬ b.eccentricity = 0)
    (he1 : b.eccentricity * b.eccentricity ≤ 1) (t : ℝ) :
    (bodyPositionAUprime b t).1 ^ 2 + (bodyPositionAUprime b t).2 ^ 2 =
      b.sma_au ^ 2 * (1 - b.eccentricity * Real.cos (solveKepler
        (normalizeAngle (TAU / b.period_days * t)) b.eccentricity)) ^ 2 := by
  simp only [bodyPositionAUprime, if_neg hname, if_neg he]
  have hsq : Real.sqrt (1 - b.eccentricity * b.eccentricity) ^ 2 =
      1 - b.eccentricity * b.eccentricity :=
    Real.sq_sqrt (by linarith)
  have h1 := Real.sin_sq_add_cos_sq (solveKepler
    (normalizeAngle (TAU / b.period_days * t)) b.eccentricity)
  have h2 := Real.sin_sq_add_cos_sq (toRadians b.perihelion_deg)
  linear_combination
    (b.sma_au ^ 2 * (Real.cos (solveKepler (normalizeAngle
        (TAU / b.period_days * t)) b.eccentricity) - b.eccentricity) ^ 2 +
      b.sma_au ^ 2 * Real.sqrt (1 - b.eccentricity * b.eccentricity) ^ 2 *
        Real.sin (solveKepler (normalizeAngle (TAU / b.period_days * t))
          b.eccentricity) ^ 2) * h2 +
    (b.sma_au ^ 2 * Real.sin (solveKepler (normalizeAngle
        (TAU / b.period_days * t)) b.eccentricity) ^ 2) * hsq +
    (b.sma_au ^ 2 * (1 - b.eccentricity * b.eccentricity)) * h1

/-- The squared norm of a non-star body's position stays between the squared
periapsis and apoapsis distances `(a(1-e))²` and `(a(1+e))²`. -/
theorem bodyPosition_normSq_bounds (b : Body ℝ) (hname : ¬ b.name = "Sun")
    (he0 : 0 < b.eccentricity) (he1 : b.eccentricity < 1)
    (ha : 0 < b.sma_au) (t : ℝ) :
    (b.sma_au * (1 - b.eccentricity)) ^ 2 ≤
      (bodyPositionAUprime b t).1 ^ 2 + (bodyPositionAUprime b t).2 ^ 2 ∧
    (bodyPositionAUprime b t).1 ^ 2 + (bodyPositionAUprime b t).2 ^ 2 ≤
      (b.sma_au * (1 + b.eccentricity)) ^ 2 := by
  rw [bodyPosition_normSq b hname (ne_of_gt he0) (by nlinarith) t]
  have hcos1 := Real.cos_le_one (solveKepler
    (normalizeAngle (TAU / b.period_days * t)) b.eccentricity)
  have hcos2 := Real.neg_one_le_cos (solveKepler
    (normalizeAngle (TAU / b.period_days * t)) b.eccentricity)
  have hu1 : 1 - b.eccentricity ≤ 1 - b.eccentricity * Real.cos (solveKepler
      (normalizeAngle (TAU / b.period_days * t)) b.eccentricity) := by nlinarith
  have hu2 : 1 - b.eccentricity * Real.cos (solveKepler
      (normalizeAngle (TAU / b.period_days * t)) b.eccentricity) ≤
      1 + b.eccentricity := by nlinarith
  have hp : (0:ℝ) < 1 - b.eccentricity := by linarith
  have hu0 : (0:ℝ) ≤ 1 - b.eccentricity * Real.cos (solveKepler
      (normalizeAngle (TAU / b.period_days * t)) b.eccentricity) :=
    le_trans hp.le hu1
  have hsq1 := mul_self_le_mul_self hp.le hu1
  have hsq2 := mul_self_le_mul_self hu0 hu2
  constructor
  · nlinarith [sq_nonneg b.sma_au, hsq1]
  · nlinarith [sq_nonneg b.sma_au, hsq2]

/-- Two non-star bodies with separated apoapsis/periapsis intervals never
occupy the same position. -/
theorem position_ne_of_separated (b c : Body ℝ) (t : ℝ)
    (hb : ¬ b.name = "Sun") (hc : ¬ c.name = "Sun")
    (hbe0 : 0 < b.eccentricity) (hbe1 : b.eccentricity < 1)
    (hba : 0 < b.sma_au)
    (hce0 : 0 < c.eccentricity) (hce1 : c.eccentricity < 1)
    (hca : 0 < c.sma_au)
    (hsep : (b.sma_au * (1 + b.eccentricity)) ^ 2 <
      (c.sma_au * (1 - c.eccentricity)) ^ 2) :
    bodyPositionAUprime b t ≠ bodyPositionAUprime c t := by
  intro h
  have hbb := (bodyPosition_normSq_bounds b hb hbe0 hbe1 hba t).2
  have hcb := (bodyPosition_normSq_bounds c hc hce0 hce1 hca t).1
  rw [h] at hbb
  linarith

/-- A non-star body is never at the origin, where the Sun sits. -/
theorem position_ne_sun (c : Body ℝ) (t : ℝ) (hc : ¬ c.name = "Sun")
    (hce0 : 0 < c.eccentricity) (hce1 : c.eccentricity < 1)
    (hca : 0 < c.sma_au) :
    bodyPositionAUprime (sun ℝ) t ≠ bodyPositionAUprime c t := by
  intro h
  have hsun : bodyPositionAUprime (sun ℝ) t = (0, 0) := by
    simp [bodyPositionAUprime, sun]
  have hcb := (bodyPosition_normSq_bounds c hc hce0 hce1 hca t).1
  rw [← h, hsun] at hcb
  have h1 : (0:ℝ) < c.sma_au * (1 - c.eccentricity) :=
    mul_pos hca (by linarith)
  have hpos : (0:ℝ) < (c.sma_au * (1 - c.eccentricity)) ^ 2 := pow_pos h1 2
  simp at hcb
  linarith

set_option maxHeartbeats 2000000 in
/-- At any simulation time, distinct bodies of the configured list occupy
distinct world positions: the nine apoapsis/periapsis intervals are pairwise
disjoint. -/
theorem bodies_distinct_positions (t : ℝ) :
    ∀ b ∈ BODIES ℝ, ∀ c ∈ BODIES ℝ, b ≠ c →
      bodyPositionAUprime b t ≠ bodyPositionAUprime c t := by
  intro b hb c hc hne
  simp only [BODIES, List.mem_cons, List.not_mem_nil, or_false] at hb hc
  rcases hb with rfl | rfl | rfl | rfl | rfl | rfl | rfl | rfl | rfl <;>
    rcases hc with rfl | rfl | rfl | rfl | rfl | rfl | rfl | rfl | rfl <;>
    first
      | exact absurd rfl hne
      | (apply position_ne_sun <;>
          first
            | (norm_num [mercury, venus, earth, mars, jupiter, saturn, uranus,
                neptune]
               done)
            | decide)
      | (apply Ne.symm
         apply position_ne_sun <;>
          first
            | (norm_num [mercury, venus, earth, mars, jupiter, saturn, uranus,
                neptune]
               done)
            | decide)
      | (apply position_ne_of_separated <;>
          first
            | (norm_num [mercury, venus, earth, mars, jupiter, saturn, uranus,
                neptune]
               done)
            | decide)
      | (apply Ne.symm
         apply position_ne_of_separated <;>
          first
            | (norm_num [mercury, venus, earth, mars, jupiter, saturn, uranus,
                neptune]
               done)
            | decide)

/-- C7: the `onClick` handler selects exactly per the claim's rule — the
body minimizing pixel distance among bodies within their hit threshold
`max(10, radius + 6)`, ties to the first in list order (`pickSpec` is that
rule written as a recursion) — and a click exactly at a body's computed
screen center always selects that body, for every camera state with
in-range zoom and positive base scale and every simulation time. -/
theorem click_picking (size : ViewSize ℝ) (st : SimState ℝ)
    (hbase : 0 < st.baseScale) (hz1 : 0.02 ≤ st.zoom) :
    (∀ mx my : ℝ,
      onClickPick size st mx my = pickSpec size st mx my (BODIES ℝ)) ∧
    (∀ b ∈ BODIES ℝ,
      onClickPick size st
        (toScreen size st (bodyPositionAUprime b st.timeDays).1
          (bodyPositionAUprime b st.timeDays).2).1
        (toScreen size st (bodyPositionAUprime b st.timeDays).1
          (bodyPositionAUprime b st.timeDays).2).2 = some b) := by
  have hrefine : ∀ mx my : ℝ,
      onClickPick size st mx my = pickSpec size st mx my (BODIES ℝ) := by
    intro mx my
    unfold onClickPick
    rw [pickAux_none_eq]
    cases pickSpec size st mx my (BODIES ℝ) <;> rfl
  refine ⟨hrefine, fun b hb => ?_⟩
  rw [hrefine]
  have hs : st.baseScale * st.zoom ≠ 0 :=
    ne_of_gt (mul_pos hbase (lt_of_lt_of_le (by norm_num) hz1))
  apply pickSpec_at_center _ _ _ _ _ b hb (clickDistance_self size st b)
    (clickThreshold_pos st b)
  intro c hc hcb
  exact clickDistance_pos_of_ne size st b c hs
    (bodies_distinct_positions st.timeDays c hc b hb hcb)

/-- C7 witness: with the concrete initial state, a click exactly at Earth's
computed screen center selects Earth. -/
theorem click_picking_witness :
    0 < (sampleState ℝ).baseScale ∧ (0.02 : ℝ) ≤ (sampleState ℝ).zoom ∧
    earth ℝ ∈ BODIES ℝ ∧
    onClickPick (sampleSize ℝ) (sampleState ℝ)
      (toScreen (sampleSize ℝ) (sampleState ℝ)
        (bodyPositionAUprime (earth ℝ) (sampleState ℝ).timeDays).1
        (bodyPositionAUprime (earth ℝ) (sampleState ℝ).timeDays).2).1
      (toScreen (sampleSize ℝ) (sampleState ℝ)
        (bodyPositionAUprime (earth ℝ) (sampleState ℝ).timeDays).1
        (bodyPositionAUprime (earth ℝ) (sampleState ℝ).timeDays).2).2 =
      some (earth ℝ) := by
  have hmem : earth ℝ ∈ BODIES ℝ := by simp [BODIES]
  exact ⟨by norm_num [sampleState], by norm_num [sampleState], hmem,
    (click_picking (sampleSize ℝ) (sampleState ℝ) (by norm_num [sampleState])
      (by norm_num [sampleState])).2 (earth ℝ) hmem⟩

end SolarVis
